import Mathlib

/-!
Verification development for the DeepDelta deep-comparison engine.

The Python sources (`deepdelta/core.py`, `deepdelta/comparator.py`,
`deep_delta/delta_config.py`, `deepdelta/delta_output.py`) are shallowly
embedded below.  The embedding follows these conventions:

* Python runtime values are modelled by the inductive family `Value`
  (`None`, `bool`, `int`, `float`, `str`, `list`, `tuple`, `dict`).
  Python floats are modelled as exact rationals plus a separate `nan`
  element whose equality behaviour (`nan == nan` is `False`) is modelled
  exactly; rounding performed by `"{:.Nf}".format` is modelled as exact
  half-even rounding of the rational.  `Decimal`, `datetime`, `set`,
  user-defined classes and `re.Pattern` key specifiers are outside the
  modelled fragment.
* Python dictionaries are association lists in insertion order with
  pairwise distinct keys; iteration order of Python `set` values, which
  CPython leaves unspecified, is modelled canonically as first-appearance
  order.
* Exceptions are modelled with `Except PyErr`; `PyErr.outOfFuel` is not a
  Python exception but the marker used by the fuel-bounded recursion of
  the engine (`compare_any` and friends recurse on an explicit fuel
  argument; every Python-level recursive call consumes one unit).
* `str.casefold` is modelled as ASCII lowercasing and `str.strip` trims
  the ASCII whitespace characters; all concrete inputs used in theorems
  stay inside this fragment.
* `logging` calls are not part of the state; the only place where a claim
  is about logging, the warnings a function emits are collected by a
  dedicated `..._warnings` companion definition that mirrors the
  `logger.warning` call sites of the corresponding source path.
-/

/- Python runtime values of the fragment handled by the engine:
scalars, strings, lists, tuples and dicts.  `float q` is a (non-NaN)
float modelled as an exact rational; `nan` is the float NaN. -/
mutual

inductive Value where
  | none
  | bool (b : Bool)
  | int (n : Int)
  | float (q : ℚ)
  | nan
  | str (s : String)
  | list (xs : ValueList)
  | tuple (xs : ValueList)
  | dict (es : EntryList)

inductive ValueList where
  | nil
  | cons (v : Value) (t : ValueList)

inductive EntryList where
  | nil
  | cons (k v : Value) (t : EntryList)

end

/-- Convert a modelled Python list/tuple payload to a Lean list. -/
def ValueList.toList : ValueList → List Value
  | .nil => []
  | .cons v t => v :: t.toList

/-- Build a modelled Python list/tuple payload from a Lean list. -/
def ValueList.ofList : List Value → ValueList
  | [] => .nil
  | v :: t => .cons v (ValueList.ofList t)

/-- Convert a modelled Python dict payload to a Lean association list. -/
def EntryList.toList : EntryList → List (Value × Value)
  | .nil => []
  | .cons k v t => (k, v) :: t.toList

/-- Build a modelled Python dict payload from a Lean association list. -/
def EntryList.ofList : List (Value × Value) → EntryList
  | [] => .nil
  | (k, v) :: t => .cons k v (EntryList.ofList t)

/-- Number of entries of a modelled dict (Python `len`). -/
def elen : EntryList → Nat
  | .nil => 0
  | .cons _ _ t => elen t + 1

/-- Number of elements of a modelled list/tuple (Python `len`). -/
def vlen : ValueList → Nat
  | .nil => 0
  | .cons _ t => vlen t + 1

/-- Search the entries for the first key satisfying `p`; when found, test
its value with `q` and stop.  This is the lookup discipline of CPython
dict equality, which probes each key once. -/
def entryFindBy (p q : Value → Bool) : EntryList → Bool
  | .nil => false
  | .cons k2 v2 fs => if p k2 then q v2 else entryFindBy p q fs

/-- Numeric content of a value for Python cross-type numeric equality
(`True == 1`, `1 == 1.0`); `nan` deliberately has none. -/
def numQ : Value → Option ℚ
  | .bool b => some (if b then 1 else 0)
  | .int n => some n
  | .float q => some q
  | _ => Option.none

mutual

/-- Python `==` on the modelled fragment: NaN is unequal to everything
(itself included), numbers compare by value across `bool`/`int`/`float`,
strings, lists, tuples and dicts compare structurally, and any other
cross-type pair is unequal. -/
def pyEq : Value → Value → Bool
  | .nan, _ => false
  | .str a, w => match w with | .str b => a == b | _ => false
  | .list xs, w => match w with | .list ys => pyEqL xs ys | _ => false
  | .tuple xs, w => match w with | .tuple ys => pyEqL xs ys | _ => false
  | .dict es, w => match w with
      | .dict fs => elen es == elen fs && pyEntriesLe es fs
      | _ => false
  | .none, w => match w with | .none => true | _ => false
  | a, b =>
    match numQ a, numQ b with
    | some x, some y => x == y
    | _, _ => false

/-- Elementwise Python `==` of two sequences of equal kind. -/
def pyEqL : ValueList → ValueList → Bool
  | .nil, w => match w with | .nil => true | _ => false
  | .cons x xs, w =>
    match w with | .cons y ys => pyEq x y && pyEqL xs ys | _ => false

/-- Every entry of the first dict is found, with equal value, in the
second; together with equal lengths this is Python dict equality. -/
def pyEntriesLe : EntryList → EntryList → Bool
  | .nil, _ => true
  | .cons k v es, fs =>
    entryFindBy (fun k2 => pyEq k k2) (fun v2 => pyEq v v2) fs &&
    pyEntriesLe es fs

end

/-- Runtime type tags (`type(x)`) of the modelled fragment. -/
inductive PyType where
  | noneT
  | boolT
  | intT
  | floatT
  | strT
  | listT
  | tupleT
  | dictT
deriving DecidableEq

/-- Python `type(v)`; NaN is a float. -/
def typeOf : Value → PyType
  | .none => .noneT
  | .bool _ => .boolT
  | .int _ => .intT
  | .float _ => .floatT
  | .nan => .floatT
  | .str _ => .strT
  | .list _ => .listT
  | .tuple _ => .tupleT
  | .dict _ => .dictT

/-- `issubclass(t, collections.abc.Collection)` on the modelled types:
`str`, `list`, `tuple` and `dict` are Collections. -/
def isCollectionType : PyType → Bool
  | .strT | .listT | .tupleT | .dictT => true
  | _ => false

/-- `isinstance(v, Mapping)` on the modelled fragment. -/
def isMapping (v : Value) : Bool :=
  match v with | .dict _ => true | _ => false

/-- `isinstance(v, Sequence)`: strings, lists and tuples are Sequences
(dicts are not). -/
def isSequence (v : Value) : Bool :=
  match v with | .str _ | .list _ | .tuple _ => true | _ => false

/-- `isinstance(v, str)`. -/
def isStr (v : Value) : Bool :=
  match v with | .str _ => true | _ => false

/-- Python truthiness (`bool(v)`): `None`, `False`, zero, the empty
string and empty containers are falsy; NaN is truthy. -/
def pyTruthy : Value → Bool
  | .none => false
  | .bool b => b
  | .int n => n != 0
  | .float q => q != 0
  | .nan => true
  | .str s => s != ""
  | .list xs => vlen xs != 0
  | .tuple xs => vlen xs != 0
  | .dict es => elen es != 0

/-- `str.casefold`, modelled on the ASCII fragment as lowercasing. -/
def pyCasefold (s : String) : String :=
  List.asString (s.data.map Char.toLower)

/-- The characters `str.strip()` removes (ASCII whitespace). -/
def pyIsSpaceChar (c : Char) : Bool :=
  c == ' ' || c == '\t' || c == '\n' || c == '\r' || c == '\x0b' || c == '\x0c'

/-- `str.strip()`: drop leading and trailing whitespace. -/
def pyStripStr (s : String) : String :=
  List.asString
    (((s.data.dropWhile pyIsSpaceChar).reverse.dropWhile pyIsSpaceChar).reverse)

/-- Membership test `'>' in s` (the path separator is a single char). -/
def containsSep (s : String) : Bool :=
  s.data.contains '>'

/-- Worker for `str.split('>')`, accumulating the current segment. -/
def splitSepAux : List Char → List Char → List String
  | [], acc => [List.asString acc.reverse]
  | c :: rest, acc =>
    if c == '>' then List.asString acc.reverse :: splitSepAux rest []
    else splitSepAux rest (c :: acc)

/-- `s.split('>')`; like Python, the empty string yields `[""]`. -/
def splitSep (s : String) : List String :=
  splitSepAux s.data []

/-- `s.split('>')[-1]`, the last segment of a key path. -/
def lastSegment (s : String) : String :=
  (splitSep s).getLastD ""

/-- `s.endswith(suffix)`. -/
def strEndsWithS (s suffix : String) : Bool :=
  suffix.data.isSuffixOf s.data

/-- `s.startswith(p)`. -/
def strStartsWithS (s p : String) : Bool :=
  p.data.isPrefixOf s.data

/-- `s[0] == '>'` (only evaluated on nonempty strings in the source). -/
def firstIsSep (s : String) : Bool :=
  match s.data with
  | c :: _ => c == '>'
  | [] => false

/-- Code-point lexicographic comparison backing Python `str <=`. -/
def charListLe : List Char → List Char → Bool
  | [], _ => true
  | _ :: _, [] => false
  | a :: as, b :: bs => if a == b then charListLe as bs else decide (a < b)

/-- Python `str <=`. -/
def strLeB (a b : String) : Bool :=
  charListLe a.data b.data

/-- Insert a string into a `strLeB`-sorted list, after equal elements. -/
def insertStr (x : String) : List String → List String
  | [] => [x]
  | y :: t => if strLeB y x then y :: insertStr x t else x :: y :: t

/-- Insertion sort by `strLeB`, modelling `list.sort()` on strings. -/
def sortStrs : List String → List String
  | [] => []
  | x :: t => insertStr x (sortStrs t)

/-- Join rendered elements with `", "` as Python container printing does. -/
def joinComma : List String → String
  | [] => ""
  | [s] => s
  | s :: t => s ++ ", " ++ joinComma t

/-- Round a rational to the nearest integer, ties to even — the rounding
of `"{:.Nf}".format` on the modelled exact values. -/
def roundHalfEven (q : ℚ) : Int :=
  let f : Int := ⌊q⌋
  let r : ℚ := q - f
  if r < 1 / 2 then f
  else if r > 1 / 2 then f + 1
  else if f % 2 = 0 then f else f + 1

/-- Render a scaled integer as a fixed-point decimal with `prec` digits
after the point. -/
def decFixed (n : Int) (prec : Nat) : String :=
  let sign := if n < 0 then "-" else ""
  let m := n.natAbs
  if prec == 0 then sign ++ toString m
  else
    let digits := (toString m).data
    let padded := List.replicate (prec + 1 - digits.length) '0' ++ digits
    let whole := padded.take (padded.length - prec)
    let frac := padded.drop (padded.length - prec)
    sign ++ List.asString whole ++ "." ++ List.asString frac

/-- A parsed Python float: `Option.none` stands for NaN. -/
abbrev FloatQ := Option ℚ

/-- `"{:.precf}".format(x)`: fixed-point rendering with half-even
rounding; NaN renders as `"nan"`. -/
def asFloatStrQ (x : FloatQ) (prec : Nat) : String :=
  match x with
  | some q => decFixed (roundHalfEven (q * ((10 : ℚ) ^ prec))) prec
  | Option.none => "nan"

/-- Digit run to a natural number. -/
def natOfDigits (cs : List Char) : Nat :=
  cs.foldl (fun a c => a * 10 + (c.toNat - '0'.toNat)) 0

/-- Parse an unsigned decimal literal (`123`, `1.5`, `.5`, `2.`) to an
exact rational; exponent forms are outside the modelled fragment. -/
def parseUnsignedDec (cs : List Char) : Option ℚ :=
  let intPart := cs.takeWhile Char.isDigit
  let rest := cs.dropWhile Char.isDigit
  match rest with
  | [] => if intPart.isEmpty then Option.none else some (natOfDigits intPart)
  | '.' :: fracPart =>
    if fracPart.all Char.isDigit && !(intPart.isEmpty && fracPart.isEmpty) then
      some ((natOfDigits intPart : ℚ) +
        (natOfDigits fracPart : ℚ) / ((10 : ℚ) ^ fracPart.length))
    else Option.none
  | _ => Option.none

/-- `float(s)` on a string: optional sign, decimal literal or `nan`,
surrounding whitespace allowed; `Option.none` when Python would raise
`ValueError`. -/
def pyFloatOfStr (s : String) : Option FloatQ :=
  let cs := (pyStripStr s).data
  let (sign, body) :=
    match cs with
    | '-' :: t => ((-1 : ℚ), t)
    | '+' :: t => ((1 : ℚ), t)
    | t => ((1 : ℚ), t)
  if body.map Char.toLower == "nan".data then some Option.none
  else
    match parseUnsignedDec body with
    | some q => some (some (sign * q))
    | Option.none => Option.none

/-- Modelled Python exceptions; `outOfFuel` is the embedding marker for
exhausted recursion fuel, not a Python exception. -/
inductive PyErr where
  | typeError
  | valueError
  | keyError
  | indexError
  | attributeError
  | outOfFuel
deriving DecidableEq

/-- `float(v)`: numbers convert by value, strings parse, anything else
raises `TypeError`. -/
def pyFloatOf (v : Value) : Except PyErr FloatQ :=
  match v with
  | .int n => .ok (some n)
  | .float q => .ok (some q)
  | .nan => .ok Option.none
  | .bool b => .ok (some (if b then 1 else 0))
  | .str s =>
    match pyFloatOfStr s with
    | some f => .ok f
    | Option.none => .error .valueError
  | _ => .error .typeError

mutual

/-- Shared worker for `str(v)` and `repr(v)`: the flag asks for repr
form, which quotes strings; container elements always render in repr
form.  CPython renders floats with shortest-repr, which has no exact
rational counterpart; the fallback fixed rendering here is documented as
an approximation and is never load-bearing in the theorems below. -/
def pyStrF : Value → Bool → String
  | .none, _ => "None"
  | .bool b, _ => if b then "True" else "False"
  | .int n, _ => toString n
  | .float q, _ =>
    if q.den == 1 then toString q.num ++ ".0" else asFloatStrQ (some q) 17
  | .nan, _ => "nan"
  | .str s, r => if r then "'" ++ s ++ "'" else s
  | .list xs, _ => "[" ++ joinComma (pyStrListF xs) ++ "]"
  | .tuple (.cons x .nil), _ => "(" ++ pyStrF x true ++ ",)"
  | .tuple xs, _ => "(" ++ joinComma (pyStrListF xs) ++ ")"
  | .dict es, _ => "\x7b" ++ joinComma (pyStrEntriesF es) ++ "\x7d"

/-- Repr forms of the elements of a list/tuple. -/
def pyStrListF : ValueList → List String
  | .nil => []
  | .cons v t => pyStrF v true :: pyStrListF t

/-- Repr forms `key: value` of the entries of a dict. -/
def pyStrEntriesF : EntryList → List String
  | .nil => []
  | .cons k v t => (pyStrF k true ++ ": " ++ pyStrF v true) :: pyStrEntriesF t

end

/-- Python `str(v)`. -/
def pyStr (v : Value) : String :=
  pyStrF v false

/-- Modelled type-based comparator: may raise, as conversion errors
propagate to the caller in the source. -/
abbrev PyCmp := Value → Value → Except PyErr Bool

/-- `Comparator.DEFAULT_FLOAT_PRECISION`. -/
def DEFAULT_FLOAT_PRECISION : Nat := 2

/-- `as_float_str(value, precision)`: convert to float then render with
the given or default number of digits. -/
def as_float_str (value : Value) (precision : Option Nat) :
    Except PyErr String := do
  let f ← pyFloatOf value
  match precision with
  | Option.none => pure (asFloatStrQ f DEFAULT_FLOAT_PRECISION)
  | some p => pure (asFloatStrQ f p)

/-- `compare_number_with_precision(lhs, rhs, precision)`. -/
def compare_number_with_precision (lhs rhs : Value) (precision : Option Nat) :
    Except PyErr Bool := do
  pure ((← as_float_str lhs precision) == (← as_float_str rhs precision))

/-- `with_precision(precision)`: the comparator with fixed precision. -/
def with_precision (precision : Nat) : PyCmp :=
  fun lhs rhs => compare_number_with_precision lhs rhs (some precision)

/-- `Comparator.TRUE_VALUES` (in CPython's set, `1` collapses into
`True`; membership is unchanged). -/
def TRUE_VALUES : List Value :=
  [.bool true, .str "True", .str "Yes", .str "Y", .str "Positive",
   .int 1, .str "TRUE", .str "yes"]

/-- `Comparator.FALSE_VALUES`. -/
def FALSE_VALUES : List Value :=
  [.bool false, .str "False", .str "No", .str "N", .str "Negative",
   .int 0, .str "FALSE", .str "no"]

/-- `Comparator.as_bool(value)`: membership in the literal sets, raising
`ValueError` otherwise. -/
def as_bool (value : Value) : Except PyErr Bool :=
  if TRUE_VALUES.any (fun t => pyEq value t) then pure true
  else if FALSE_VALUES.any (fun t => pyEq value t) then pure false
  else .error .valueError

/-- `compare_any_with_str(other, str_value)`: numeric and boolean
overrides first, otherwise compare `str(other)` with the string. -/
def compare_any_with_str (other : Value) (str_value : String) :
    Except PyErr Bool :=
  match other with
  | .int _ | .float _ | .nan =>
    compare_number_with_precision other (.str str_value) Option.none
  | .bool b => do pure (b == (← as_bool (.str str_value)))
  | _ => pure (pyStr other == str_value)

/-- `Comparator.compare_with_str(lhs, rhs)`. -/
def compare_with_str (lhs rhs : Value) : Except PyErr Bool :=
  match lhs with
  | .str s => compare_any_with_str rhs s
  | _ =>
    match rhs with
    | .str s => compare_any_with_str lhs s
    | _ => .error .valueError

/-- `compare_any_with_none(value)`: default falsiness hook. -/
def compare_any_with_none (value : Value) : Bool :=
  !pyTruthy value

/-- `Comparator.compare_with_none(lhs, rhs)`. -/
def compare_with_none (lhs rhs : Value) : Except PyErr Bool :=
  if pyEq lhs .none && pyEq rhs .none then pure true
  else if pyEq lhs .none then pure (compare_any_with_none rhs)
  else if pyEq rhs .none then pure (compare_any_with_none lhs)
  else .error .valueError

/-- `compare_bool_with_str(other, str_value)`: convert the string with
`as_bool` and compare. -/
def compare_bool_with_str (other str_value : Value) : Except PyErr Bool := do
  let b ← as_bool str_value
  pure (pyEq other (.bool b))

/-- A type-comparator table: ordered type-pair entries and single-type
entries, with unique keys, mirroring the Python dict keyed by
`Tuple[Type, Type]` or `Type`. -/
structure CompTable where
  pairs : List ((PyType × PyType) × PyCmp)
  singles : List (PyType × PyCmp)

/-- Python falsiness of the comparator dict (`not comparators`). -/
def CompTable.isEmpty (t : CompTable) : Bool :=
  t.pairs.isEmpty && t.singles.isEmpty

/-- Dict lookup on the ordered-pair keys. -/
def lookupPair (t : CompTable) (k : PyType × PyType) : Option PyCmp :=
  (t.pairs.find? (fun e => e.1 == k)).map (fun e => e.2)

/-- Dict lookup on the single-type keys. -/
def lookupSingle (t : CompTable) (k : PyType) : Option PyCmp :=
  (t.singles.find? (fun e => e.1 == k)).map (fun e => e.2)

/-- Dict assignment `comparators[(a, b)] = f`: replace in place when the
key exists, append otherwise. -/
def setPair (t : CompTable) (k : PyType × PyType) (f : PyCmp) : CompTable :=
  if (t.pairs.find? (fun e => e.1 == k)).isSome then
    { t with pairs := t.pairs.map (fun e => if e.1 == k then (k, f) else e) }
  else
    { t with pairs := t.pairs ++ [(k, f)] }

/-- Dict deletion `del comparators[tp]` on the single-type keys. -/
def removeSingle (t : CompTable) (k : PyType) : CompTable :=
  { t with singles := t.singles.filter (fun e => e.1 != k) }

/-- `DEFAULT_TYPE_COMPARATOR`.  The three `Decimal` entries of the source
are outside the modelled value fragment and are omitted; every other
entry is present in source order. -/
def DEFAULT_TYPE_COMPARATOR : CompTable :=
  { pairs :=
      [((.intT, .floatT), with_precision 0),
       ((.intT, .strT), with_precision 0),
       ((.floatT, .strT),
         fun lhs rhs => compare_number_with_precision lhs rhs Option.none),
       ((.boolT, .strT), compare_bool_with_str),
       ((.strT, .noneT), compare_with_str)],
    singles :=
      [(.strT, compare_with_str),
       (.noneT, compare_with_none)] }

/-- Tri-state outcome of `are_equal`: a boolean, or the sentinel
`NotImplemented` the source returns for unhandled combinations. -/
inductive EqResult where
  | bool (b : Bool)
  | notImplemented
deriving DecidableEq

/-- `are_equal(lhs, rhs, comparators)`: ordered-pair lookup, reversed
pair with swapped arguments, single type on the left, single type on the
right (swapped), then `NotImplemented` for differing types or a Collection
on the left, else plain `==`.  The duplicate-registration warnings are
log-only and not part of the state. -/
def are_equal (lhs rhs : Value) (comparators : Option CompTable) :
    Except PyErr EqResult :=
  let comps :=
    match comparators with
    | Option.none => DEFAULT_TYPE_COMPARATOR
    | some t => if t.isEmpty then DEFAULT_TYPE_COMPARATOR else t
  let lt := typeOf lhs
  let rt := typeOf rhs
  match lookupPair comps (lt, rt) with
  | some f => do pure (.bool (← f lhs rhs))
  | Option.none =>
  match lookupPair comps (rt, lt) with
  | some f => do pure (.bool (← f rhs lhs))
  | Option.none =>
  match lookupSingle comps lt with
  | some f => do pure (.bool (← f lhs rhs))
  | Option.none =>
  match lookupSingle comps rt with
  | some f => do pure (.bool (← f rhs lhs))
  | Option.none =>
  if lt != rt || isCollectionType lt then pure .notImplemented
  else pure (.bool (pyEq lhs rhs))

/-- `with_comparators(comparators, none_dif_default)`: when no table (or
an empty one) is supplied, take the default table and replace the
`(str, NoneType)` entry; with `none_dif_default` additionally delete the
`NoneType` single entry and make `(str, NoneType)` constantly unequal. -/
def with_comparators (comparators : Option CompTable)
    (none_dif_default : Bool) : CompTable :=
  let fresh :=
    match comparators with
    | Option.none => true
    | some t => t.isEmpty
  if fresh then
    let base := DEFAULT_TYPE_COMPARATOR
    if none_dif_default then
      setPair (removeSingle base .noneT) (.strT, .noneT)
        (fun _ _ => pure false)
    else
      setPair base (.strT, .noneT)
        (fun lhs rhs => pure (!pyTruthy lhs && !pyTruthy rhs))
  else
    match comparators with
    | some t => t
    | Option.none => DEFAULT_TYPE_COMPARATOR

namespace DeltaConfig

/-- `DeltaConfig.KeyCaseIgnored`. -/
def KeyCaseIgnored : Nat := 1

/-- `DeltaConfig.ValueCaseIgnored`. -/
def ValueCaseIgnored : Nat := 2

/-- `DeltaConfig.CaseIgnored`. -/
def CaseIgnored : Nat := 3

/-- `DeltaConfig.KeySpaceTrimmed`. -/
def KeySpaceTrimmed : Nat := 4

/-- `DeltaConfig.ValueSpaceTrimmed`. -/
def ValueSpaceTrimmed : Nat := 8

/-- `DeltaConfig.SpaceTrimmed`. -/
def SpaceTrimmed : Nat := 12

/-- `DeltaConfig.IdAsKey`. -/
def IdAsKey : Nat := 16

/-- `DeltaConfig.NoneUnequalDefault`. -/
def NoneUnequalDefault : Nat := 32

/-- `DeltaConfig.MissingAsNone`. -/
def MissingAsNone : Nat := 64

/-- `DeltaConfig.OutputKeepAllDetails`. -/
def OutputKeepAllDetails : Nat := 128

/-- `DeltaConfig.OutputWithDeltaIndicator`. -/
def OutputWithDeltaIndicator : Nat := 256

/-- `DeltaConfig.OutputIncludeValueTypes`. -/
def OutputIncludeValueTypes : Nat := 512

/-- `DeltaConfig.OutputDeltaFormatMask`. -/
def OutputDeltaFormatMask : Nat := 3072

/-- `DeltaConfig.OutputDeltaAsTuple`. -/
def OutputDeltaAsTuple : Nat := 0

/-- `DeltaConfig.OutputDeltaAsDict`. -/
def OutputDeltaAsDict : Nat := 1024

/-- `DeltaConfig.OutputDeltaAsStr`. -/
def OutputDeltaAsStr : Nat := 2048

/-- `DeltaConfig.OutputDeltaAsCustom`. -/
def OutputDeltaAsCustom : Nat := 3072

/-- `DeltaConfig.OutputFormatMask` (five bits from bit 7). -/
def OutputFormatMask : Nat := 3968

/-- `DeltaConfig.OutputDefault`. -/
def OutputDefault : Nat := 0

/-- `DeltaConfig.OutputWithFlag`. -/
def OutputWithFlag : Nat := 256

/-- `DeltaConfig.OutputAllDetails`. -/
def OutputAllDetails : Nat := 896

/-- `DeltaConfig.OutputNoneOrDict`. -/
def OutputNoneOrDict : Nat := 1024

/-- `DeltaConfig.OutputNoneOrDictRaw`. -/
def OutputNoneOrDictRaw : Nat := 1152

/-- `DeltaConfig.OutputNoneOrStr`. -/
def OutputNoneOrStr : Nat := 2048

/-- `DeltaConfig.OutputNoneOrStrRaw`. -/
def OutputNoneOrStrRaw : Nat := 2176

/-- `DeltaConfig.matches(self, flags, mask)`: the source computes
`self & (mask or flags) == flags`, where `or` is Python's coalescing
disjunction — `mask` is used when it is given and nonzero (a zero Flag is
falsy), and `flags` is used otherwise. -/
def matchesFlag (self flags : Nat) (mask : Option Nat) : Bool :=
  let m :=
    match mask with
    | some mv => if mv != 0 then mv else flags
    | Option.none => flags
  (self &&& m) == flags

end DeltaConfig

/-- `DEFAULT_DELTA_CONFIG`: CaseIgnored, SpaceTrimmed, IdAsKey,
MissingAsNone and OutputDefault. -/
def DEFAULT_DELTA_CONFIG : Nat :=
  DeltaConfig.CaseIgnored |||
  DeltaConfig.SpaceTrimmed |||
  DeltaConfig.IdAsKey |||
  DeltaConfig.MissingAsNone |||
  DeltaConfig.OutputDefault

/-- Build a modelled tuple from a Lean list. -/
def Value.tupleL (l : List Value) : Value :=
  .tuple (ValueList.ofList l)

/-- Build a modelled list from a Lean list. -/
def Value.listL (l : List Value) : Value :=
  .list (ValueList.ofList l)

/-- Build a modelled dict from a Lean association list. -/
def Value.dictL (l : List (Value × Value)) : Value :=
  .dict (EntryList.ofList l)

/-- `DeltaOutput.get_value_abbrev`: `None` stays `None`; lists, dicts and
tuples collapse to their placeholder tokens from `TYPE_ABBREVIATIONS`
(the `set` token is outside the modelled fragment); anything else passes
through. -/
def get_value_abbrev : Value → Value
  | .none => .none
  | .list _ => .str "[...]"
  | .dict _ => .str "\x7b...\x7d"
  | .tuple _ => .str "(...)"
  | v => v

/-- Shape of an output formatter `(is_dif, left, right) -> result`; the
difference indicator is an arbitrary value judged by truthiness, exactly
as the untyped source treats it. -/
abbrev OutputFn := Value → Value → Value → Value

/-- Render a runtime type tag; Python type objects are embedded into
`Value` as their printed names. -/
def typeNameStr : PyType → String
  | .noneT => "<class 'NoneType'>"
  | .boolT => "<class 'bool'>"
  | .intT => "<class 'int'>"
  | .floatT => "<class 'float'>"
  | .strT => "<class 'str'>"
  | .listT => "<class 'list'>"
  | .tupleT => "<class 'tuple'>"
  | .dictT => "<class 'dict'>"

/-- `DeltaOutput.no_flag_tuple_abbrev`. -/
def no_flag_tuple_abbrev : OutputFn := fun is_dif left right =>
  if pyTruthy is_dif then
    Value.tupleL [get_value_abbrev left, get_value_abbrev right]
  else .none

/-- `DeltaOutput.as_tuple`. -/
def as_tuple : OutputFn := fun is_dif left right =>
  Value.tupleL [is_dif, left, right]

/-- `DeltaOutput.type_included`; type objects appear as name strings. -/
def type_included : OutputFn := fun is_dif left right =>
  Value.tupleL [is_dif, left, right,
    .str (typeNameStr (typeOf left)), .str (typeNameStr (typeOf right))]

/-- `DeltaOutput.as_none_or_str_raw` (`STR_FORMAT` is `'{0} | {1}'`,
which formats with `str`). -/
def as_none_or_str_raw : OutputFn := fun is_dif left right =>
  if pyTruthy is_dif then .str (pyStr left ++ " | " ++ pyStr right)
  else .none

/-- `DeltaOutput.as_none_or_str`. -/
def as_none_or_str : OutputFn := fun is_dif left right =>
  if pyTruthy is_dif then
    .str (pyStr (get_value_abbrev left) ++ " | " ++ pyStr (get_value_abbrev right))
  else .none

/-- `DeltaOutput.as_none_or_dict_raw`. -/
def as_none_or_dict_raw : OutputFn := fun is_dif left right =>
  if !pyTruthy is_dif then .none
  else Value.dictL [(.str "LEFT", left), (.str "RIGHT", right)]

/-- `DeltaOutput.as_none_or_dict`. -/
def as_none_or_dict : OutputFn := fun is_dif left right =>
  if !pyTruthy is_dif then .none
  else Value.dictL [(.str "LEFT", get_value_abbrev left),
                    (.str "RIGHT", get_value_abbrev right)]

/-- `Output_Buffer`: the registered formatters, keyed by the effective
output bits of the configuration. -/
def Output_Buffer (output_config : Nat) : Option OutputFn :=
  if output_config == DeltaConfig.OutputDefault then some no_flag_tuple_abbrev
  else if output_config == DeltaConfig.OutputWithFlag then some as_tuple
  else if output_config == DeltaConfig.OutputAllDetails then some type_included
  else if output_config == DeltaConfig.OutputNoneOrDict then some as_none_or_dict
  else if output_config == DeltaConfig.OutputNoneOrDictRaw then some as_none_or_dict_raw
  else if output_config == DeltaConfig.OutputDeltaAsStr then some as_none_or_str
  else if output_config == DeltaConfig.OutputNoneOrStrRaw then some as_none_or_str_raw
  else Option.none

/-- `get_output(config)`: mask out the format bits, look the formatter up
(`Option.none` models the `TypeError` the source raises for unregistered
combinations), and unless keep-all-details is set, pre-abbreviate both
values before the formatter runs. -/
def get_output (config : Nat) : Option OutputFn :=
  match Output_Buffer (config &&& DeltaConfig.OutputFormatMask) with
  | Option.none => Option.none
  | some out =>
    if DeltaConfig.matchesFlag config DeltaConfig.OutputKeepAllDetails Option.none then
      some out
    else
      some (fun is_dif left right =>
        out is_dif (get_value_abbrev left) (get_value_abbrev right))

/-- `DeepDelta.PATH_SEPARATOR`. -/
def PATH_SEPARATOR : String := ">"

/-- `DeepDelta.MISSING`, the sentinel string for a key absent on one
side when the missing-as-none policy is off. -/
def MISSING : String := "MISSING"

/-- `DeepDelta.DEFAULT_FLOAT_NUMBER_DIGITS`. -/
def DEFAULT_FLOAT_NUMBER_DIGITS : Nat := 2

/-- `normalize` on strings: casefold when asked, then strip when asked. -/
def normalize_str (s : String) (case_ignored space_trimmed : Bool) : String :=
  let cased := if case_ignored then pyCasefold s else s
  if space_trimmed then pyStripStr cased else cased

mutual

/-- `normalize(key, case_ignored, space_trimmed)`: tuples normalize
elementwise; strings casefold/strip; floats format with the fixed two
digits (ignoring both flags, as the source register does); every other
value goes through `str()` and then the string rules.  The
`date`/`datetime` register is outside the modelled fragment. -/
def normalizeKey : Value → Bool → Bool → Value
  | .tuple xs, ci, st => .tuple (normalizeKeyL xs ci st)
  | .str s, ci, st => .str (normalize_str s ci st)
  | .float q, _, _ => .str (asFloatStrQ (some q) DEFAULT_FLOAT_NUMBER_DIGITS)
  | .nan, _, _ => .str (asFloatStrQ Option.none DEFAULT_FLOAT_NUMBER_DIGITS)
  | v, ci, st => .str (normalize_str (pyStr v) ci st)

/-- Elementwise normalization of a tuple key. -/
def normalizeKeyL : ValueList → Bool → Bool → ValueList
  | .nil, _, _ => .nil
  | .cons v t, ci, st => .cons (normalizeKey v ci st) (normalizeKeyL t ci st)

end

/-- The `str` register of `key_matches`: a bare name (no separator)
compares against the path's last segment, a leading-separator specifier
against the whole path, and any other specifier as a path suffix; each
comparison casefolds both sides when case-ignoring is on. -/
def key_matches_str (key key_path : String) (case_ignored : Bool) : Bool :=
  if !containsSep key then
    let last_key := lastSegment key_path
    if case_ignored then pyCasefold key == pyCasefold last_key
    else key == last_key
  else if firstIsSep key then
    if case_ignored then pyCasefold key == pyCasefold key_path
    else key == key_path
  else
    if case_ignored then strEndsWithS (pyCasefold key_path) (pyCasefold key)
    else strEndsWithS key_path key

/-- `key_matches(kp, key_path, case_ignored)` dispatch: tuples compare
normalized against the path, strings use `key_matches_str`, and any
other key is converted with `str()` first; the `re.Pattern` register is
outside the modelled fragment.  A non-string path reaching the string
register raises (the source would fail calling `str` methods on it). -/
def key_matches (kp : Value) (key_path : Value) (case_ignored : Bool) :
    Except PyErr Bool :=
  match kp with
  | .tuple xs => pure (pyEq (normalizeKey (.tuple xs) case_ignored false) key_path)
  | .str s =>
    match key_path with
    | .str p => pure (key_matches_str s p case_ignored)
    | _ => .error .typeError
  | v =>
    match key_path with
    | .str p => pure (key_matches_str (pyStr v) p case_ignored)
    | _ => .error .typeError

/-- `matched_keys(key_path, all_keys, case_ignored, space_trimmed)`:
normalize the path, then keep the keys that match it.  The
multiple-match warning is log-only. -/
def matched_keys (key_path : Value) (all_keys : List Value)
    (case_ignored space_trimmed : Bool) : Except PyErr (List Value) := do
  let normalized := normalizeKey key_path case_ignored space_trimmed
  all_keys.filterM (fun k => key_matches k normalized case_ignored)

/-- The `logger.warning` messages `matched_keys` emits: one when more
than one key matches, none otherwise. -/
def matched_keys_warnings (key_path : Value) (all_keys : List Value)
    (case_ignored space_trimmed : Bool) : Except PyErr (List String) := do
  let keys ← matched_keys key_path all_keys case_ignored space_trimmed
  if keys.length > 1 then
    pure ["Multiple matching of " ++ pyStr key_path]
  else
    pure []

/-- `key_denoted_by_id(name, case_ignored)`: the normalized name starts
or ends with `id`.  A tuple-normalized name, on which the source would
raise `AttributeError`, is treated as a non-key; no claim exercises it. -/
def key_denoted_by_id (name : Value) (case_ignored : Bool) : Bool :=
  match normalizeKey name case_ignored true with
  | .str s => strEndsWithS s "id" || strStartsWithS s "id"
  | _ => false

/-- Canonical model of a Python `set` built by insertion: first
appearance order, deduplicated under `==`. -/
def dedupPyEq (l : List Value) : List Value :=
  l.foldl (fun acc k => if acc.any (fun a => pyEq a k) then acc else acc ++ [k]) []

/-- `set.intersection`, in left-operand order. -/
def interPyEq (a b : List Value) : List Value :=
  a.filter (fun x => b.any (fun y => pyEq x y))

/-- Result of `guess_keys`: a set of key names, or the literal empty
dict `{}` the source returns for a heterogeneous sequence (the two are
distinguishable downstream: `dict.intersection` does not exist). -/
inductive KeySet where
  | set (elems : List Value)
  | emptyDict

/-- Elements of a `KeySet`; iterating the empty dict yields nothing. -/
def KeySet.toList : KeySet → List Value
  | .set l => l
  | .emptyDict => []

/-- `get_matched_keys(candidates, is_key, case_ignored, *keys)`: explicit
keys filter the candidates through `matched_keys`; otherwise the
predicate filters them; otherwise the result is empty. -/
def get_matched_keys (candidates : List Value)
    (is_key : Option (Value → Bool → Bool)) (case_ignored : Bool)
    (keys : List Value) : Except PyErr (List Value) :=
  if !keys.isEmpty then
    candidates.filterM
      (fun k => do pure (!(← matched_keys k keys case_ignored true).isEmpty))
  else
    match is_key with
    | some p => pure (candidates.filter (fun k => p k case_ignored))
    | Option.none => pure []

/-- The warnings `get_matched_keys` emits, all coming from its
`matched_keys` calls in the explicit-keys branch. -/
def get_matched_keys_warnings (candidates : List Value)
    (_is_key : Option (Value → Bool → Bool)) (case_ignored : Bool)
    (keys : List Value) : Except PyErr (List String) :=
  if !keys.isEmpty then do
    let per ← candidates.mapM
      (fun k => matched_keys_warnings k keys case_ignored true)
    pure per.flatten
  else
    pure []

/-- Keys of a modelled dict value. -/
def dictKeysOf (v : Value) : List Value :=
  match v with
  | .dict es => es.toList.map (fun e => e.1)
  | _ => []

/-- `set.intersection(*key_sets)` folded over all members. -/
def intersectMany : List (List Value) → List Value
  | [] => []
  | h :: t => t.foldl interPyEq h

/-- `guess_keys(seq, is_key, case_ignored, *keys)`: empty sequence →
`set(keys)`; heterogeneous item types → the literal `{}`; mappings →
filter the intersection of their key sets; other homogeneous items have
no `__dict__` in the modelled fragment, so the candidates are empty. -/
def guess_keys (seq : List Value) (is_key : Option (Value → Bool → Bool))
    (case_ignored : Bool) (keys : List Value) : Except PyErr KeySet := do
  if seq.isEmpty then
    pure (.set (dedupPyEq keys))
  else
    let item_types := (seq.map typeOf).eraseDups
    if item_types.length != 1 then
      pure .emptyDict
    else
      let item_type := item_types.headD .noneT
      if item_type == .dictT then
        let key_sets := seq.map dictKeysOf
        let shared_keys := intersectMany key_sets
        pure (.set (← get_matched_keys shared_keys is_key case_ignored keys))
      else
        pure (.set (← get_matched_keys [] is_key case_ignored keys))

/-- The warnings `guess_keys` emits, all coming from
`get_matched_keys`. -/
def guess_keys_warnings (seq : List Value)
    (is_key : Option (Value → Bool → Bool)) (case_ignored : Bool)
    (keys : List Value) : Except PyErr (List String) := do
  if seq.isEmpty then
    pure []
  else
    let item_types := (seq.map typeOf).eraseDups
    if item_types.length != 1 then
      pure []
    else
      let item_type := item_types.headD .noneT
      if item_type == .dictT then
        let shared_keys := intersectMany (seq.map dictKeysOf)
        get_matched_keys_warnings shared_keys is_key case_ignored keys
      else
        get_matched_keys_warnings [] is_key case_ignored keys

/-- `item[k]` on a modelled dict. -/
def dictGetKey (item k : Value) : Except PyErr Value :=
  match item with
  | .dict es =>
    match es.toList.find? (fun e => pyEq e.1 k) with
    | some e => pure e.2
    | Option.none => .error .keyError
  | _ => .error .typeError

/-- Dict assignment `d[k] = v`: overwrite the value at the first
matching key, keeping its position and original key object, else
append. -/
def dictInsertPair (es : List (Value × Value)) (k v : Value) :
    List (Value × Value) :=
  if es.any (fun e => pyEq e.1 k) then
    es.map (fun e => if pyEq e.1 k then (e.1, v) else e)
  else
    es ++ [(k, v)]

/-- Build a dict from pairs as a Python dict comprehension does: later
pairs with an already-present key overwrite the earlier value. -/
def pyDictOfPairs (l : List (Value × Value)) : List (Value × Value) :=
  l.foldl (fun acc e => dictInsertPair acc e.1 e.2) []

/-- Underlying string of a string value. -/
def strOf (v : Value) : String :=
  match v with
  | .str s => s
  | _ => ""

/-- `list.sort()` on the computed key names; modelled for the string
keys every claim uses (Python would order any mutually comparable keys,
which is outside the fragment). -/
def pySortValues (vs : List Value) : Except PyErr (List Value) :=
  if vs.all isStr then
    pure ((sortStrs (vs.map strOf)).map Value.str)
  else
    .error .typeError

/-- `sequence_to_dict(seq, is_key, case_ignored, *keys)`: guess the
identity keys, take the type of the first item (raising `IndexError` on
an empty sequence before any emptiness check), then index positionally,
by the single key's value, or by the tuple of the sorted keys' values;
the dict comprehension lets later duplicate indexes overwrite earlier
ones.  Non-mapping items with identified keys would use `__dict__`,
which no modelled value has. -/
def sequence_to_dict (seq : List Value)
    (is_key : Option (Value → Bool → Bool)) (case_ignored : Bool)
    (keys0 : List Value) : Except PyErr Value := do
  let guessed ← guess_keys seq is_key case_ignored keys0
  let keys := guessed.toList
  let items := seq
  let item_type ←
    match items with
    | [] => Except.error PyErr.indexError
    | it :: _ => pure (typeOf it)
  match keys with
  | [] =>
    pure (Value.dictL (pyDictOfPairs
      ((List.range items.length).map
        (fun i => (Value.str (toString i), items.getD i Value.none)))))
  | [k] =>
    if item_type == .dictT then do
      let pairs ← items.mapM (fun it => do pure ((← dictGetKey it k), it))
      pure (Value.dictL (pyDictOfPairs pairs))
    else Except.error PyErr.attributeError
  | ks => do
    let sorted ← pySortValues ks
    if item_type == .dictT then do
      let pairs ← items.mapM (fun it => do
        let vals ← sorted.mapM (fun k => dictGetKey it k)
        pure (Value.tupleL vals, it))
      pure (Value.dictL (pyDictOfPairs pairs))
    else Except.error PyErr.attributeError

/-- The `logger.warning` messages emitted while `sequence_to_dict` runs:
its own body contains no logging call, so they are exactly the warnings
of its `guess_keys` call. -/
def sequence_to_dict_warnings (seq : List Value)
    (is_key : Option (Value → Bool → Bool)) (case_ignored : Bool)
    (keys0 : List Value) : Except PyErr (List String) :=
  guess_keys_warnings seq is_key case_ignored keys0

/-- A constructed `DeepDelta` instance: the configuration, the resolved
output formatter, the typed-comparator table built by
`with_comparators`, the named comparators in registration order (string
specifiers; tuple/pattern specifiers are outside the modelled fragment)
and the excluded key specifiers. -/
structure DeepDeltaM where
  config : Nat
  output : OutputFn
  typed : CompTable
  named : List (String × (Value → Value → String → Value))
  excluded : List String

/-- `DeepDelta.as_delta(as_dif, lhs, rhs)`. -/
def as_delta (dd : DeepDeltaM) (as_dif lhs rhs : Value) : Value :=
  dd.output as_dif lhs rhs

/-- `DeepDelta.get_named_comparator(key_path)`: the first registered
specifier matching the path wins. -/
def get_named_comparator (dd : DeepDeltaM) (key_path : String) :
    Option (Value → Value → String → Value) :=
  let ci := DeltaConfig.matchesFlag dd.config DeltaConfig.KeyCaseIgnored Option.none
  (dd.named.find? (fun e => key_matches_str e.1 key_path ci)).map (fun e => e.2)

/-- `DeepDelta.is_excluded(key_path)`. -/
def is_excluded (dd : DeepDeltaM) (key_path : String) : Bool :=
  let ci := DeltaConfig.matchesFlag dd.config DeltaConfig.KeyCaseIgnored Option.none
  dd.excluded.any (fun k => key_matches_str k key_path ci)

/-- Python `len` of a Collection value. -/
def pyLenOf : Value → Nat
  | .str s => s.data.length
  | .list xs => vlen xs
  | .tuple xs => vlen xs
  | .dict es => elen es
  | _ => 0

/-- `DeepDelta.delta_to_keep(value)`: keep everything under
keep-all-details; drop `None`; under an indicator-carrying output shape
a tuple keeps by its first element (an empty tuple would raise); other
Collections keep when nonempty; anything else keeps by truthiness. -/
def delta_to_keep (dd : DeepDeltaM) (value : Value) : Except PyErr Bool :=
  if DeltaConfig.matchesFlag dd.config DeltaConfig.OutputKeepAllDetails Option.none then
    pure true
  else
    match value with
    | .none => pure false
    | v =>
      if DeltaConfig.matchesFlag dd.config DeltaConfig.OutputWithFlag Option.none
          && (match v with | .tuple _ => true | _ => false) then
        match v with
        | .tuple (.cons x _) => pure (pyTruthy x)
        | _ => .error .indexError
      else if isCollectionType (typeOf v) then
        pure (pyLenOf v != 0)
      else
        pure (pyTruthy v)

/-- `lhs[k]` for a dict already flattened to an association list. -/
def dictLookup (es : List (Value × Value)) (k : Value) : Except PyErr Value :=
  match es.find? (fun e => pyEq e.1 k) with
  | some e => pure e.2
  | Option.none => .error .keyError

/-- Elements a Sequence value yields when iterated: a string yields its
characters as one-char strings, lists and tuples their members. -/
def seqElems : Value → List Value
  | .str s => s.data.map (fun c => Value.str (String.singleton c))
  | .list xs => xs.toList
  | .tuple xs => xs.toList
  | _ => []

mutual

/-- `DeepDelta.compare_any(lhs, rhs, key_path)`: named comparator first
(its result goes through the formatter as the difference indicator),
then plain `==`, then the configured string comparison when both sides
are strings, then dict or sequence recursion, then the typed resolver —
a boolean result becomes the negated indicator and `NotImplemented`
reports different.  The fuel argument bounds the Python-level
recursion. -/
def compare_any (dd : DeepDeltaM) :
    Nat → Value → Value → String → Except PyErr Value
  | 0, _, _, _ => .error .outOfFuel
  | fuel + 1, lhs, rhs, key_path =>
    match get_named_comparator dd key_path with
    | some f => pure (as_delta dd (f lhs rhs key_path) lhs rhs)
    | Option.none =>
      if pyEq lhs rhs then pure (as_delta dd (.bool false) lhs rhs)
      else
        let vst := DeltaConfig.matchesFlag dd.config DeltaConfig.ValueSpaceTrimmed Option.none
        match lhs, rhs with
        | .str a, .str b =>
          let is_dif :=
            if DeltaConfig.matchesFlag dd.config DeltaConfig.ValueCaseIgnored Option.none then
              if vst then pyCasefold (pyStripStr a) != pyCasefold (pyStripStr b)
              else pyCasefold a != pyCasefold b
            else
              if vst then pyStripStr a != pyStripStr b
              else a != b
          pure (as_delta dd (.bool is_dif) (.str a) (.str b))
        | lhs, rhs =>
          if isMapping lhs && isMapping rhs then
            match lhs, rhs with
            | .dict es, .dict fs =>
              compare_dict dd fuel es.toList fs.toList key_path
            | _, _ => .error .typeError
          else if isSequence lhs && isSequence rhs then
            compare_sequence dd fuel (seqElems lhs) (seqElems rhs) key_path
              Option.none []
          else do
            let typed_result ← are_equal lhs rhs (some dd.typed)
            match typed_result with
            | .bool b => pure (as_delta dd (.bool !b) lhs rhs)
            | .notImplemented => pure (as_delta dd (.bool true) lhs rhs)

/-- `DeepDelta.compare_dict(lhs, rhs, dict_path)`: filter excluded keys,
union and normalize the survivors, then per key resolve the (last)
matching original key on each side — an absent side yields `None` under
missing-as-none and the `MISSING` sentinel otherwise — hand the pair to
a matching named comparator (whose raw result is stored), or report
equality, or recurse; finally keep only the entries `delta_to_keep`
approves. -/
def compare_dict (dd : DeepDeltaM) :
    Nat → List (Value × Value) → List (Value × Value) → String →
    Except PyErr Value
  | 0, _, _, _ => .error .outOfFuel
  | fuel + 1, lhs, rhs, dict_path => do
    let ci := DeltaConfig.matchesFlag dd.config DeltaConfig.KeyCaseIgnored Option.none
    let kst := DeltaConfig.matchesFlag dd.config DeltaConfig.KeySpaceTrimmed Option.none
    let man := DeltaConfig.matchesFlag dd.config DeltaConfig.MissingAsNone Option.none
    let l_keys := (lhs.map (fun e => e.1)).filter
      (fun k => !is_excluded dd (dict_path ++ PATH_SEPARATOR ++ pyStr k))
    let r_keys := (rhs.map (fun e => e.1)).filter
      (fun k => !is_excluded dd (dict_path ++ PATH_SEPARATOR ++ pyStr k))
    let all_keys :=
      dedupPyEq ((dedupPyEq (l_keys ++ r_keys)).map (fun k => normalizeKey k ci false))
    let delta ← all_keys.foldlM (fun acc key => do
      let key_path := dict_path ++ PATH_SEPARATOR ++ pyStr key
      if is_excluded dd key_path then
        pure acc
      else do
        let lks ← matched_keys key l_keys ci kst
        let rks ← matched_keys key r_keys ci kst
        let l_value ←
          match lks.getLast? with
          | some k => dictLookup lhs k
          | Option.none => pure (if man then Value.none else Value.str MISSING)
        let r_value ←
          match rks.getLast? with
          | some k => dictLookup rhs k
          | Option.none => pure (if man then Value.none else Value.str MISSING)
        let entry ←
          match get_named_comparator dd key_path with
          | some f => pure (f l_value r_value key_path)
          | Option.none =>
            if pyEq l_value r_value then
              pure (as_delta dd (.bool false) l_value r_value)
            else
              compare_any dd fuel l_value r_value key_path
        pure (acc ++ [(key, entry)])) []
    let kept ← delta.filterM (fun e => delta_to_keep dd e.2)
    pure (Value.dict (EntryList.ofList kept))

/-- `DeepDelta.compare_sequence(lhs, rhs, seq_path, is_key, *keys)`:
guess each side's identity keys (defaulting the predicate from the
IdAsKey flag), intersect them, convert both sides with
`sequence_to_dict` and compare the dicts.  A heterogeneous left side
makes `guess_keys` return `{}`, on which `set.intersection` does not
exist and the source raises `AttributeError`. -/
def compare_sequence (dd : DeepDeltaM) :
    Nat → List Value → List Value → String →
    Option (Value → Bool → Bool) → List Value → Except PyErr Value
  | 0, _, _, _, _, _ => .error .outOfFuel
  | fuel + 1, lhs, rhs, seq_path, is_key0, keys0 => do
    let ci := DeltaConfig.matchesFlag dd.config DeltaConfig.KeyCaseIgnored Option.none
    let is_key :=
      match is_key0 with
      | some p => some p
      | Option.none =>
        if DeltaConfig.matchesFlag dd.config DeltaConfig.IdAsKey Option.none then
          some key_denoted_by_id
        else Option.none
    let l_keys ← guess_keys lhs is_key ci keys0
    let r_keys ← guess_keys rhs is_key ci keys0
    let keys ←
      match l_keys with
      | .emptyDict => Except.error PyErr.attributeError
      | .set ls => pure (interPyEq ls r_keys.toList)
    let l_dict ← sequence_to_dict lhs is_key ci keys
    let r_dict ← sequence_to_dict rhs is_key ci keys
    match l_dict, r_dict with
    | .dict es, .dict fs => compare_dict dd fuel es.toList fs.toList seq_path
    | _, _ => .error .typeError

end

/-- `DeepDelta.__init__`: `config or DEFAULT_DELTA_CONFIG` (a zero Flag
is falsy and also falls back to the default), the formatter resolved by
`get_output` (`Option.none` models its construction-time `TypeError`),
and the typed table from `with_comparators`. -/
def mkDeepDelta (config : Option Nat) (type_comparators : Option CompTable)
    (named : List (String × (Value → Value → String → Value)))
    (excluded : List String) : Except PyErr DeepDeltaM :=
  let cfg :=
    match config with
    | Option.none => DEFAULT_DELTA_CONFIG
    | some c => if c == 0 then DEFAULT_DELTA_CONFIG else c
  match get_output cfg with
  | Option.none => .error .typeError
  | some out =>
    let none_unequal :=
      DeltaConfig.matchesFlag cfg DeltaConfig.NoneUnequalDefault Option.none
    pure
      { config := cfg
        output := out
        typed := with_comparators type_comparators none_unequal
        named := named
        excluded := excluded }

/-- `DeepDelta.compare(lhs, rhs, options)` with default comparators and
no exclusions: construct the instance and run `compare_any` with an
empty key path. -/
def DeepDelta_compare (fuel : Nat) (lhs rhs : Value) (options : Option Nat) :
    Except PyErr Value := do
  let dd ← mkDeepDelta options Option.none [] []
  compare_any dd fuel lhs rhs ""

/-- Key freshness: `k` is `==`-distinct, in both directions, from every
key of the entries. -/
def freshKeyE (k : Value) : EntryList → Bool
  | .nil => true
  | .cons k2 _ t => !pyEq k k2 && !pyEq k2 k && freshKeyE k t

/-- Pairwise `==`-distinct keys, the invariant any dict built by Python
maintains. -/
def distinctKeysE : EntryList → Bool
  | .nil => true
  | .cons k _ t => freshKeyE k t && distinctKeysE t

mutual

/-- Regular values: no NaN anywhere and every dict has genuinely
distinct keys — exactly the values a Python program can observe as equal
to themselves. -/
def regularV : Value → Bool
  | .nan => false
  | .list xs => regularL xs
  | .tuple xs => regularL xs
  | .dict es => distinctKeysE es && regularE es
  | _ => true

/-- `regularV` over list elements. -/
def regularL : ValueList → Bool
  | .nil => true
  | .cons v t => regularV v && regularL t

/-- `regularV` over dict keys and values. -/
def regularE : EntryList → Bool
  | .nil => true
  | .cons k v t => regularV k && regularV v && regularE t

end

theorem pyEntriesLe_cons_of_fresh :
    ∀ (t : EntryList) (k v : Value) (fs : EntryList),
      freshKeyE k t = true →
      pyEntriesLe t (.cons k v fs) = pyEntriesLe t fs
  | .nil, _, _, _, _ => rfl
  | .cons k2 v2 t, k, v, fs, h => by
    have hs : (pyEq k k2 = false ∧ pyEq k2 k = false) ∧ freshKeyE k t = true := by
      simpa [freshKeyE] using h
    obtain ⟨⟨_, h2⟩, h3⟩ := hs
    simp [pyEntriesLe, entryFindBy, h2, pyEntriesLe_cons_of_fresh t k v fs h3]

mutual

theorem pyEq_self : ∀ (v : Value), regularV v = true → pyEq v v = true
  | .none, _ => rfl
  | .bool b, _ => by simp [pyEq, numQ]
  | .int n, _ => by simp [pyEq, numQ]
  | .float q, _ => by simp [pyEq, numQ]
  | .nan, h => by simp [regularV] at h
  | .str s, _ => by simp [pyEq]
  | .list xs, h => by
    have := pyEqL_self xs (by simpa [regularV] using h)
    simpa [pyEq] using this
  | .tuple xs, h => by
    have := pyEqL_self xs (by simpa [regularV] using h)
    simpa [pyEq] using this
  | .dict es, h => by
    have hs : distinctKeysE es = true ∧ regularE es = true := by
      simpa [regularV] using h
    obtain ⟨hd, hr⟩ := hs
    have := pyEntriesLe_self es hd hr
    simp [pyEq, this]

theorem pyEqL_self : ∀ (xs : ValueList), regularL xs = true → pyEqL xs xs = true
  | .nil, _ => rfl
  | .cons v t, h => by
    have hs : regularV v = true ∧ regularL t = true := by
      simpa [regularL] using h
    obtain ⟨hv, ht⟩ := hs
    simp [pyEqL, pyEq_self v hv, pyEqL_self t ht]

theorem pyEntriesLe_self :
    ∀ (es : EntryList), distinctKeysE es = true → regularE es = true →
      pyEntriesLe es es = true
  | .nil, _, _ => rfl
  | .cons k v t, hd, hr => by
    have hds : freshKeyE k t = true ∧ distinctKeysE t = true := by
      simpa [distinctKeysE] using hd
    obtain ⟨hf, hd2⟩ := hds
    have hrs : (regularV k = true ∧ regularV v = true) ∧ regularE t = true := by
      simpa [regularE, and_assoc] using hr
    obtain ⟨⟨hk, hv⟩, hr2⟩ := hrs
    simp [pyEntriesLe, entryFindBy, pyEq_self k hk, pyEq_self v hv,
      pyEntriesLe_cons_of_fresh t k v t hf, pyEntriesLe_self t hd2 hr2]

end

/-- Claim C1 (corrected), counterexample: `compare(x, x)` does not always
yield the no-difference result.  For `x = float('nan')`, under the
default configuration, `compare(nan, nan)` returns the difference tuple
`(nan, nan)` rather than `None`, because `nan == nan` is false and the
typed resolver falls back to `==` for two floats. -/
theorem compare_nan_self_reports_difference :
    DeepDelta_compare 1 .nan .nan (some DEFAULT_DELTA_CONFIG)
        = .ok (Value.tupleL [.nan, .nan])
    ∧ Value.tupleL [.nan, .nan] ≠ Value.none :=
  ⟨by rfl, fun h => nomatch h⟩

/-- Claim C1 (corrected, amended): for every regular value `x` (no NaN
inside, dict keys genuinely distinct) and every configuration whose
output format resolves to a formatter, `DeepDelta.compare(x, x)` yields
the no-difference result: the engine's formatter applied with the
difference indicator `False` (which is `None` under the default output
shape). -/
theorem compare_reflexive_on_regular_values
    (cfg : Nat) (x : Value) (fuel : Nat) (dd : DeepDeltaM)
    (hreg : regularV x = true)
    (hmk : mkDeepDelta (some cfg) Option.none [] [] = .ok dd) :
    DeepDelta_compare (fuel + 1) x x (some cfg)
      = .ok (dd.output (.bool false) x x) := by
  have hx := pyEq_self x hreg
  unfold mkDeepDelta at hmk
  dsimp only at hmk
  rcases hO : get_output (if (cfg == 0) = true then DEFAULT_DELTA_CONFIG else cfg)
    with _ | out
  · rw [hO] at hmk
    exact absurd hmk (by simp)
  · rw [hO] at hmk
    simp only [pure, Except.pure] at hmk
    cases hmk
    unfold DeepDelta_compare
    unfold mkDeepDelta
    dsimp only
    rw [hO]
    simp [compare_any, get_named_comparator, hx, as_delta, pure, Except.pure,
      bind, Except.bind]

/-- Witness for `compare_reflexive_on_regular_values` at the default
configuration and `x = 3`. -/
theorem compare_reflexive_on_regular_values_witness :
    DeepDelta_compare 1 (.int 3) (.int 3) (some 95) = .ok Value.none :=
  (compare_reflexive_on_regular_values 95 (.int 3) 0
    { config := 95
      output := fun d l r =>
        no_flag_tuple_abbrev d (get_value_abbrev l) (get_value_abbrev r)
      typed := with_comparators Option.none false
      named := []
      excluded := [] } rfl rfl).trans rfl

/-- Claim C2 (corrected), counterexample: `DeltaConfig.matches` does not
implement `(self AND (mask OR flag)) == flag` with a bitwise union.  For
`self = flag = KeyCaseIgnored (1)` and `mask = ValueCaseIgnored (2)`,
the code computes `1 & 2 == 1`, i.e. `False`, while the bitwise-union
reading gives `1 & (2 | 1) == 1`, i.e. `True`. -/
theorem matchesFlag_mask_is_coalescing_not_union :
    DeltaConfig.matchesFlag 1 1 (some 2) = false
    ∧ (((1 : Nat) &&& ((2 : Nat) ||| 1)) == 1) = true :=
  ⟨by rfl, by rfl⟩

/-- Claim C2 (corrected, amended): `DeltaConfig.matches(flag, mask)`
returns True exactly when `(self AND m) == flag`, where `m` is the mask
when one is supplied and nonzero (Python's coalescing `or`), and the
flag itself otherwise. -/
theorem matchesFlag_uses_mask_or_flags (self flags m : Nat) :
    (DeltaConfig.matchesFlag self flags (some m)
        = (if m = 0 then (self &&& flags) == flags else (self &&& m) == flags))
    ∧ DeltaConfig.matchesFlag self flags Option.none
        = ((self &&& flags) == flags) := by
  constructor
  · unfold DeltaConfig.matchesFlag
    by_cases h : m = 0 <;> simp [h]
  · rfl

/-- Claim C3 (corrected), counterexample: in dict comparison the raw
result of a matching named comparator is stored in the delta without
passing through the output formatter.  With a comparator for key `a`
returning `True`, the delta entry is the bare `True`, while the
formatter applied to that indicator would have produced the pair
`(1, 2)`. -/
theorem named_comparator_raw_in_compare_dict :
    (do
      let dd ← mkDeepDelta (some 95) Option.none
        [("a", fun _ _ _ => Value.bool true)] []
      compare_any dd 3 (Value.dictL [(.str "a", .int 1)])
        (Value.dictL [(.str "a", .int 2)]) "")
      = .ok (Value.dictL [(.str "a", .bool true)])
    ∧ (do
      let dd ← mkDeepDelta (some 95) Option.none
        [("a", fun _ _ _ => Value.bool true)] []
      pure (as_delta dd (.bool true) (.int 1) (.int 2)))
      = .ok (Value.tupleL [.int 1, .int 2])
    ∧ Value.bool true ≠ Value.tupleL [.int 1, .int 2] :=
  ⟨by rfl, by rfl, fun h => nomatch h⟩

/-- Claim C3 (corrected, amended): when a named comparator matches the
current key path, the engine delegates entirely to it; in `compare_any`
its result is wired through the configured formatter as the difference
indicator, while in `compare_dict` the comparator's raw result is placed
directly into the delta for that key, subject only to the keep-filter. -/
theorem named_comparator_delegation :
    (∀ (dd : DeepDeltaM) (fuel : Nat) (lhs rhs : Value) (kp : String)
        (f : Value → Value → String → Value),
        get_named_comparator dd kp = some f →
        compare_any dd (fuel + 1) lhs rhs kp
          = .ok (as_delta dd (f lhs rhs kp) lhs rhs))
    ∧ (∀ (dd : DeepDeltaM) (fuel : Nat) (s : String) (v1 v2 : Value)
        (f : Value → Value → String → Value) (dp : String) (keep : Bool)
        (ci kst : Bool) (n : String),
        ci = DeltaConfig.matchesFlag dd.config DeltaConfig.KeyCaseIgnored Option.none →
        kst = DeltaConfig.matchesFlag dd.config DeltaConfig.KeySpaceTrimmed Option.none →
        n = normalize_str s ci false →
        is_excluded dd (dp ++ PATH_SEPARATOR ++ s) = false →
        is_excluded dd (dp ++ PATH_SEPARATOR ++ n) = false →
        matched_keys (.str n) [.str s] ci kst = .ok [.str s] →
        get_named_comparator dd (dp ++ PATH_SEPARATOR ++ n) = some f →
        delta_to_keep dd (f v1 v2 (dp ++ PATH_SEPARATOR ++ n)) = .ok keep →
        compare_dict dd (fuel + 1) [(.str s, v1)] [(.str s, v2)] dp
          = .ok (Value.dict (EntryList.ofList
              (if keep then [(.str n, f v1 v2 (dp ++ PATH_SEPARATOR ++ n))]
               else [])))) := by
  constructor
  · intro dd fuel lhs rhs kp f hf
    simp [compare_any, hf, pure, Except.pure]
  · intro dd fuel s v1 v2 f dp keep ci kst n hci hkst hn hx1 hx2 hmk hnc hkeep
    subst hci hkst hn
    simp only [compare_dict, pyStr, pyStrF, normalizeKey, dedupPyEq, List.map,
      List.filter, hx1, hx2, Bool.not_false, List.foldl, List.any_nil,
      Bool.false_eq_true, if_false, List.nil_append, List.append_nil,
      List.any_cons, pyEq, beq_self_eq_true, Bool.or_false, if_true,
      List.foldlM, List.cons_append]
    rw [hmk]
    simp only [bind, Except.bind, List.getLast?, List.getLast, dictLookup,
      List.find?, pyEq, beq_self_eq_true, hnc]
    simp only [List.filterM, List.filterAuxM, hkeep, bind, Except.bind, pure,
      Except.pure]
    cases keep <;> rfl

/-- A `DeepDelta` instance under the default configuration with one
named comparator for key `a`, used to exercise delegation. -/
def ddNamedW : DeepDeltaM :=
  { config := 95
    output := fun d l r =>
      no_flag_tuple_abbrev d (get_value_abbrev l) (get_value_abbrev r)
    typed := with_comparators Option.none false
    named := [("a", fun _ _ _ => Value.bool true)]
    excluded := [] }

/-- Witness for `named_comparator_delegation`: a comparator registered
for key `a` drives both `compare_any` (formatter-wrapped) and
`compare_dict` (raw entry). -/
theorem named_comparator_delegation_witness :
    compare_any ddNamedW 1 (.int 1) (.int 2) ">a"
      = .ok (Value.tupleL [.int 1, .int 2])
    ∧ compare_dict ddNamedW 1 [(.str "a", .int 1)] [(.str "a", .int 2)] ""
      = .ok (Value.dictL [(.str "a", .bool true)]) :=
  ⟨(named_comparator_delegation.1 ddNamedW 0 (.int 1) (.int 2) ">a"
      (fun _ _ _ => Value.bool true) rfl).trans rfl,
   (named_comparator_delegation.2 ddNamedW 0 "a" (.int 1) (.int 2)
      (fun _ _ _ => Value.bool true) "" true true true "a"
      rfl rfl rfl rfl rfl rfl rfl rfl).trans rfl⟩

/-- Claim C4 (confirmed): `are_equal` resolves a comparator in order —
the exact ordered type pair, then the reversed pair applied with swapped
arguments, then the left type's single entry (used regardless of the
right side's single entry; the disagreement case only logs), then the
right type's single entry applied with swapped arguments. -/
theorem are_equal_resolution_order (lhs rhs : Value) (t : CompTable)
    (hne : t.isEmpty = false) :
    (∀ f, lookupPair t (typeOf lhs, typeOf rhs) = some f →
        are_equal lhs rhs (some t)
          = do pure (EqResult.bool (← f lhs rhs)))
    ∧ (∀ f, lookupPair t (typeOf lhs, typeOf rhs) = Option.none →
        lookupPair t (typeOf rhs, typeOf lhs) = some f →
        are_equal lhs rhs (some t)
          = do pure (EqResult.bool (← f rhs lhs)))
    ∧ (∀ f, lookupPair t (typeOf lhs, typeOf rhs) = Option.none →
        lookupPair t (typeOf rhs, typeOf lhs) = Option.none →
        lookupSingle t (typeOf lhs) = some f →
        are_equal lhs rhs (some t)
          = do pure (EqResult.bool (← f lhs rhs)))
    ∧ (∀ f, lookupPair t (typeOf lhs, typeOf rhs) = Option.none →
        lookupPair t (typeOf rhs, typeOf lhs) = Option.none →
        lookupSingle t (typeOf lhs) = Option.none →
        lookupSingle t (typeOf rhs) = some f →
        are_equal lhs rhs (some t)
          = do pure (EqResult.bool (← f rhs lhs))) := by
  refine ⟨?_, ?_, ?_, ?_⟩
  · intro f h1
    simp [are_equal, hne, h1]
  · intro f h1 h2
    simp [are_equal, hne, h1, h2]
  · intro f h1 h2 h3
    simp [are_equal, hne, h1, h2, h3]
  · intro f h1 h2 h3 h4
    simp [are_equal, hne, h1, h2, h3, h4]

/-- A comparator table exercising every resolution step of
`are_equal`. -/
def cmpTableW : CompTable :=
  { pairs := [((.intT, .boolT), fun _ _ => pure true),
              ((.strT, .noneT), fun _ _ => pure false)],
    singles := [(.floatT, fun _ _ => pure true)] }

/-- Witness for `are_equal_resolution_order`: a table exercising each of
the four resolution steps at concrete values. -/
theorem are_equal_resolution_order_witness :
    are_equal (.int 1) (.bool true) (some cmpTableW) = .ok (.bool true)
    ∧ are_equal .none (.str "x") (some cmpTableW) = .ok (.bool false)
    ∧ are_equal (.float 1) (.int 2) (some cmpTableW) = .ok (.bool true)
    ∧ are_equal (.bool false) (.float 1) (some cmpTableW) = .ok (.bool true) :=
  ⟨((are_equal_resolution_order (.int 1) (.bool true) cmpTableW rfl).1
      (fun _ _ => pure true) rfl).trans rfl,
   ((are_equal_resolution_order .none (.str "x") cmpTableW rfl).2.1
      (fun _ _ => pure false) rfl rfl).trans rfl,
   ((are_equal_resolution_order (.float 1) (.int 2) cmpTableW rfl).2.2.1
      (fun _ _ => pure true) rfl rfl rfl).trans rfl,
   ((are_equal_resolution_order (.bool false) (.float 1) cmpTableW rfl).2.2.2
      (fun _ _ => pure true) rfl rfl rfl rfl).trans rfl⟩

/-- Claim C5 (confirmed): when no type comparator applies and the two
runtime types differ, or the left type is a Collection, `are_equal`
returns the distinct non-boolean `NotImplemented` outcome rather than
raising, and `compare_any` then reports the pair as different. -/
theorem unresolved_treated_as_different :
    (∀ (lhs rhs : Value) (t : CompTable), t.isEmpty = false →
        lookupPair t (typeOf lhs, typeOf rhs) = Option.none →
        lookupPair t (typeOf rhs, typeOf lhs) = Option.none →
        lookupSingle t (typeOf lhs) = Option.none →
        lookupSingle t (typeOf rhs) = Option.none →
        (typeOf lhs ≠ typeOf rhs ∨ isCollectionType (typeOf lhs) = true) →
        are_equal lhs rhs (some t) = .ok .notImplemented)
    ∧ (∀ (dd : DeepDeltaM) (fuel : Nat) (lhs rhs : Value) (kp : String),
        get_named_comparator dd kp = Option.none →
        pyEq lhs rhs = false →
        (isStr lhs && isStr rhs) = false →
        (isMapping lhs && isMapping rhs) = false →
        (isSequence lhs && isSequence rhs) = false →
        are_equal lhs rhs (some dd.typed) = .ok .notImplemented →
        compare_any dd (fuel + 1) lhs rhs kp
          = .ok (as_delta dd (.bool true) lhs rhs)) := by
  constructor
  · intro lhs rhs t hne h1 h2 h3 h4 hor
    rcases hor with h | h
    · simp [are_equal, hne, h1, h2, h3, h4, beq_eq_false_iff_ne, h,
        pure, Except.pure]
    · simp [are_equal, hne, h1, h2, h3, h4, h, pure, Except.pure]
  · intro dd fuel lhs rhs kp hnc hneq hstr hmap hseq hAE
    cases lhs <;> cases rhs <;>
      simp_all [compare_any, isStr, isMapping, isSequence, as_delta, bind,
        Except.bind, pure, Except.pure]

/-- A `DeepDelta` instance under the default configuration with no named
comparators and no exclusions. -/
def ddDefaultW : DeepDeltaM :=
  { config := 95
    output := fun d l r =>
      no_flag_tuple_abbrev d (get_value_abbrev l) (get_value_abbrev r)
    typed := with_comparators Option.none false
    named := []
    excluded := [] }

/-- Witness for `unresolved_treated_as_different`: an empty dict against
an integer resolves to `NotImplemented` under the engine's default table
and is reported as a difference. -/
theorem unresolved_treated_as_different_witness :
    are_equal (Value.dictL []) (.int 1) (some (with_comparators Option.none false))
      = .ok .notImplemented
    ∧ compare_any ddDefaultW 1 (Value.dictL []) (.int 1) ""
      = .ok (Value.tupleL [.str "\x7b...\x7d", .int 1]) :=
  ⟨(unresolved_treated_as_different.1 (Value.dictL []) (.int 1)
      (with_comparators Option.none false) rfl
      rfl rfl rfl rfl (Or.inl (fun h => nomatch h))).trans rfl,
   (unresolved_treated_as_different.2 ddDefaultW 0 (Value.dictL []) (.int 1) ""
      rfl rfl rfl rfl rfl rfl).trans rfl⟩

/-- The default-configuration engine with MissingAsNone switched off
(CaseIgnored, SpaceTrimmed and IdAsKey only). -/
def ddNoMissingW : DeepDeltaM :=
  { config := 31
    output := fun d l r =>
      no_flag_tuple_abbrev d (get_value_abbrev l) (get_value_abbrev r)
    typed := with_comparators Option.none false
    named := []
    excluded := [] }

/-- Comparing a one-entry dict against an empty dict: the absent right
side's value is `None` under missing-as-none and the `MISSING` sentinel
otherwise, and the single delta entry is produced by the ordinary
per-key pipeline. -/
theorem compare_dict_one_key_vs_empty
    (dd : DeepDeltaM) (fuel : Nat) (s : String) (v : Value) (dp : String)
    (ci kst man : Bool) (n : String)
    (hci : ci = DeltaConfig.matchesFlag dd.config DeltaConfig.KeyCaseIgnored Option.none)
    (hkst : kst = DeltaConfig.matchesFlag dd.config DeltaConfig.KeySpaceTrimmed Option.none)
    (hman : man = DeltaConfig.matchesFlag dd.config DeltaConfig.MissingAsNone Option.none)
    (hn : n = normalize_str s ci false)
    (hx1 : is_excluded dd (dp ++ PATH_SEPARATOR ++ s) = false)
    (hx2 : is_excluded dd (dp ++ PATH_SEPARATOR ++ n) = false)
    (hmk : matched_keys (.str n) [.str s] ci kst = .ok [.str s])
    (hnc : get_named_comparator dd (dp ++ PATH_SEPARATOR ++ n) = Option.none) :
    compare_dict dd (fuel + 1) [(.str s, v)] [] dp
      = (do
          let mv := if man then Value.none else Value.str MISSING
          let entry ←
            if pyEq v mv then pure (as_delta dd (.bool false) v mv)
            else compare_any dd fuel v mv (dp ++ PATH_SEPARATOR ++ n)
          let keep ← delta_to_keep dd entry
          pure (Value.dict (EntryList.ofList
            (if keep then [(.str n, entry)] else [])))) := by
  subst hci hkst hn
  simp only [compare_dict, pyStr, pyStrF, normalizeKey, dedupPyEq, List.map,
    List.filter, hx1, hx2, Bool.not_false, List.foldl, List.any_nil,
    Bool.false_eq_true, if_false, List.nil_append, List.append_nil,
    List.any_cons, pyEq, beq_self_eq_true, Bool.or_false, if_true,
    List.foldlM, List.cons_append]
  rw [hmk]
  simp only [show (∀ (x : Value) (a b : Bool),
      matched_keys x [] a b = Except.ok ([] : List Value))
      from fun _ _ _ => rfl,
    bind, Except.bind, List.getLast?, List.getLast, dictLookup,
    List.find?, pyEq, beq_self_eq_true, hnc, List.filterM, List.filterAuxM,
    pure, Except.pure]
  rw [← hman]
  cases man
  · cases hpe : pyEq v (Value.str MISSING)
    · rcases hca : compare_any dd fuel v (Value.str MISSING)
          (dp ++ PATH_SEPARATOR ++ normalize_str s
            (DeltaConfig.matchesFlag dd.config DeltaConfig.KeyCaseIgnored Option.none) false)
        with e | w
      · simp [hpe, hca]
      · rcases hdt : delta_to_keep dd w with e2 | b
        · simp [hpe, hca, hdt]
        · cases b <;> simp [hpe, hca, hdt]
    · rcases hdt : delta_to_keep dd
          (as_delta dd (Value.bool false) v (Value.str MISSING)) with e2 | b
      · simp [hpe, hdt]
      · cases b <;> simp [hpe, hdt]
  · cases hpe : pyEq v Value.none
    · rcases hca : compare_any dd fuel v Value.none
          (dp ++ PATH_SEPARATOR ++ normalize_str s
            (DeltaConfig.matchesFlag dd.config DeltaConfig.KeyCaseIgnored Option.none) false)
        with e | w
      · simp [hpe, hca]
      · rcases hdt : delta_to_keep dd w with e2 | b
        · simp [hpe, hca, hdt]
        · cases b <;> simp [hpe, hca, hdt]
    · rcases hdt : delta_to_keep dd
          (as_delta dd (Value.bool false) v Value.none) with e2 | b
      · simp [hpe, hdt]
      · cases b <;> simp [hpe, hdt]

/-- Claim C6 (confirmed): in dict comparison a key present only on the
left is paired with `None` when missing-as-none is on and with the
`MISSING` sentinel otherwise; with the policy on and the left value
`None` the delta is empty, with it off the delta holds a difference
against the sentinel, and the sentinel is not equal to `None`. -/
theorem missing_key_policy (k : String) (fuel : Nat)
    (hmk : matched_keys (.str (pyCasefold k)) [.str k] true true
      = .ok [.str k]) :
    (∀ (dd : DeepDeltaM) (fl : Nat) (s : String) (v : Value) (dp : String)
        (ci kst man : Bool) (n : String),
        ci = DeltaConfig.matchesFlag dd.config DeltaConfig.KeyCaseIgnored Option.none →
        kst = DeltaConfig.matchesFlag dd.config DeltaConfig.KeySpaceTrimmed Option.none →
        man = DeltaConfig.matchesFlag dd.config DeltaConfig.MissingAsNone Option.none →
        n = normalize_str s ci false →
        is_excluded dd (dp ++ PATH_SEPARATOR ++ s) = false →
        is_excluded dd (dp ++ PATH_SEPARATOR ++ n) = false →
        matched_keys (.str n) [.str s] ci kst = .ok [.str s] →
        get_named_comparator dd (dp ++ PATH_SEPARATOR ++ n) = Option.none →
        compare_dict dd (fl + 1) [(.str s, v)] [] dp
          = (do
              let mv := if man then Value.none else Value.str MISSING
              let entry ←
                if pyEq v mv then pure (as_delta dd (.bool false) v mv)
                else compare_any dd fl v mv (dp ++ PATH_SEPARATOR ++ n)
              let keep ← delta_to_keep dd entry
              pure (Value.dict (EntryList.ofList
                (if keep then [(.str n, entry)] else [])))))
    ∧ DeepDelta_compare (fuel + 3) (Value.dictL [(.str k, .none)])
        (Value.dictL []) (some 95) = .ok (Value.dictL [])
    ∧ DeepDelta_compare (fuel + 3) (Value.dictL [(.str k, .none)])
        (Value.dictL []) (some 31)
        = .ok (Value.dictL
            [(.str (pyCasefold k), Value.tupleL [.none, .str MISSING])])
    ∧ pyEq (.str MISSING) .none = false := by
  refine ⟨compare_dict_one_key_vs_empty, ?_, ?_, rfl⟩
  · show compare_dict ddDefaultW (fuel + 2) [(.str k, Value.none)] [] ""
      = .ok (Value.dictL [])
    exact (compare_dict_one_key_vs_empty ddDefaultW (fuel + 1) k .none ""
      true true true (pyCasefold k) rfl rfl rfl rfl rfl rfl hmk rfl).trans rfl
  · show compare_dict ddNoMissingW (fuel + 2) [(.str k, Value.none)] [] ""
      = .ok (Value.dictL
          [(.str (pyCasefold k), Value.tupleL [.none, .str MISSING])])
    exact (compare_dict_one_key_vs_empty ddNoMissingW (fuel + 1) k .none ""
      true true false (pyCasefold k) rfl rfl rfl rfl rfl rfl hmk rfl).trans rfl

/-- Witness for `missing_key_policy` at the key `k`. -/
theorem missing_key_policy_witness :
    DeepDelta_compare 3 (Value.dictL [(.str "k", .none)]) (Value.dictL [])
        (some 95) = .ok (Value.dictL [])
    ∧ DeepDelta_compare 3 (Value.dictL [(.str "k", .none)]) (Value.dictL [])
        (some 31)
        = .ok (Value.dictL [(.str "k", Value.tupleL [.none, .str "MISSING"])]) :=
  ⟨((missing_key_policy "k" 0 rfl).2.1).trans rfl,
   ((missing_key_policy "k" 0 rfl).2.2.1).trans rfl⟩

/-- Apply casefolding when case-ignoring is enabled. -/
def foldCase (ci : Bool) (s : String) : String :=
  if ci then pyCasefold s else s

/-- Claim C7 (confirmed): the string register of `key_matches` has three
forms — a bare name (no separator) matches exactly when it equals the
path's last segment, a leading-separator specifier exactly when it
equals the whole path, and any other separator-carrying specifier
exactly when the path ends with it; each comparison casefolds both sides
when case-ignoring is enabled. -/
theorem key_matches_str_three_forms (key path : String) (ci : Bool) :
    (containsSep key = false →
      key_matches_str key path ci
        = (foldCase ci key == foldCase ci (lastSegment path)))
    ∧ (firstIsSep key = true →
      key_matches_str key path ci
        = (foldCase ci key == foldCase ci path))
    ∧ (containsSep key = true → firstIsSep key = false →
      key_matches_str key path ci
        = strEndsWithS (foldCase ci path) (foldCase ci key)) := by
  refine ⟨?_, ?_, ?_⟩
  · intro h
    cases ci <;> simp [key_matches_str, h, foldCase]
  · intro h
    have hc : containsSep key = true := by
      unfold firstIsSep at h
      unfold containsSep
      cases hd : key.data with
      | nil => rw [hd] at h; exact absurd h (by simp)
      | cons c t =>
        rw [hd] at h
        simp only [List.contains_cons]
        simp only at h
        rw [(by simpa using h : c = '>')]
        simp
    cases ci <;> simp [key_matches_str, hc, h, foldCase]
  · intro h1 h2
    cases ci <;> simp [key_matches_str, h1, h2, foldCase]

/-- Witness for `key_matches_str_three_forms` on the three specifier
forms. -/
theorem key_matches_str_three_forms_witness :
    key_matches_str "key1" ">abc>>key1" true = true
    ∧ key_matches_str ">ABc>LEAF" ">abc>leaf" true = true
    ∧ key_matches_str "abc>key1" ">abc>Key1" false = false :=
  ⟨((key_matches_str_three_forms "key1" ">abc>>key1" true).1 rfl).trans rfl,
   ((key_matches_str_three_forms ">ABc>LEAF" ">abc>leaf" true).2.1 rfl).trans rfl,
   ((key_matches_str_three_forms "abc>key1" ">abc>Key1" false).2.2 rfl rfl).trans rfl⟩

theorem range_map_getD_eq_enum (l : List Value) :
    (List.range l.length).map
      (fun i => (Value.str (toString i), l.getD i Value.none))
      = l.enum.map (fun p => (Value.str (toString p.1), p.2)) := by
  apply List.ext_getElem
  · simp
  · intro i h1 h2
    simp only [List.getElem_map, List.getElem_range, List.getElem_enum]
    congr 1
    exact List.getD_eq_getElem l Value.none (by simpa using h2)

theorem mapM_ok_pair_zip {α β : Type} (f : α → Except PyErr β) :
    ∀ (l : List α) (vs : List β), l.mapM f = .ok vs →
      l.mapM (fun a => do pure ((← f a), a)) = .ok (vs.zip l)
  | [], vs, h => by
    simp only [List.mapM_nil, pure, Except.pure] at h ⊢
    cases h
    rfl
  | a :: t, vs, h => by
    rw [List.mapM_cons] at h
    rcases hf : f a with e | b
    · rw [hf] at h
      simp [bind, Except.bind] at h
    · rw [hf] at h
      rcases ht : t.mapM f with e2 | bs
      · rw [ht] at h
        simp [bind, Except.bind] at h
      · rw [ht] at h
        simp only [bind, Except.bind, pure, Except.pure] at h
        cases h
        have ih := mapM_ok_pair_zip f t bs ht
        rw [List.mapM_cons, ih]
        simp only [bind, Except.bind, hf, pure, Except.pure]
        rfl

theorem charListLe_total : ∀ (a b : List Char),
    charListLe a b = true ∨ charListLe b a = true
  | [], _ => Or.inl rfl
  | _ :: _, [] => Or.inr rfl
  | a :: as, b :: bs => by
    by_cases hab : a = b
    · subst hab
      rcases charListLe_total as bs with h | h
      · exact Or.inl (by simpa [charListLe] using h)
      · exact Or.inr (by simpa [charListLe] using h)
    · rcases lt_trichotomy a b with h | h | h
      · exact Or.inl (by simp [charListLe, hab, h])
      · exact absurd h hab
      · have hba : ¬(b = a) := fun hh => hab hh.symm
        exact Or.inr (by simp [charListLe, hba, h])

theorem charListLe_trans : ∀ (a b c : List Char),
    charListLe a b = true → charListLe b c = true → charListLe a c = true
  | [], _, _, _, _ => rfl
  | _ :: _, [], _, h, _ => by simp [charListLe] at h
  | _ :: _, _ :: _, [], _, h => by simp [charListLe] at h
  | a :: as, b :: bs, c :: cs, h1, h2 => by
    by_cases hab : a = b
    · subst hab
      by_cases hbc : a = c
      · subst hbc
        have ha := charListLe_trans as bs cs
          (by simpa [charListLe] using h1) (by simpa [charListLe] using h2)
        simpa [charListLe] using ha
      · have hc : a < c := by simpa [charListLe, hbc] using h2
        simp [charListLe, hbc, hc]
    · have hb : a < b := by simpa [charListLe, hab] using h1
      by_cases hbc : b = c
      · subst hbc
        have hac : ¬(a = b) := hab
        simp [charListLe, hac, hb]
      · have hc : b < c := by simpa [charListLe, hbc] using h2
        have hlt : a < c := lt_trans hb hc
        have hne : ¬(a = c) := ne_of_lt hlt
        simp [charListLe, hne, hlt]

theorem strLeB_total (a b : String) : strLeB a b = true ∨ strLeB b a = true :=
  charListLe_total a.data b.data

theorem strLeB_trans (a b c : String) :
    strLeB a b = true → strLeB b c = true → strLeB a c = true :=
  charListLe_trans a.data b.data c.data

theorem insertStr_perm (x : String) :
    ∀ (l : List String), (insertStr x l).Perm (x :: l)
  | [] => List.Perm.refl _
  | y :: t => by
    unfold insertStr
    cases h : strLeB y x
    · simp only [Bool.false_eq_true, if_false]
      exact List.Perm.refl _
    · simp only [if_true]
      exact ((insertStr_perm x t).cons y).trans (List.Perm.swap x y t)

theorem insertStr_sorted (x : String) :
    ∀ (l : List String),
      List.Pairwise (fun a b => strLeB a b = true) l →
      List.Pairwise (fun a b => strLeB a b = true) (insertStr x l)
  | [], _ => by simp [insertStr]
  | y :: t, hp => by
    rcases List.pairwise_cons.mp hp with ⟨hy, ht⟩
    unfold insertStr
    cases h : strLeB y x
    · simp only [Bool.false_eq_true, if_false]
      have hxy : strLeB x y = true := by
        rcases strLeB_total x y with hh | hh
        · exact hh
        · rw [hh] at h; exact absurd h (by simp)
      refine List.pairwise_cons.mpr ⟨?_, hp⟩
      intro z hz
      rcases List.mem_cons.mp hz with hzy | hzt
      · rw [hzy]; exact hxy
      · exact strLeB_trans x y z hxy (hy z hzt)
    · simp only [if_true]
      refine List.pairwise_cons.mpr ⟨?_, insertStr_sorted x t ht⟩
      intro z hz
      rcases List.mem_cons.mp ((insertStr_perm x t).mem_iff.mp hz) with hzx | hzt
      · rw [hzx]; exact h
      · exact hy z hzt

theorem sortStrs_sorted : ∀ (l : List String),
    List.Pairwise (fun a b => strLeB a b = true) (sortStrs l)
  | [] => List.Pairwise.nil
  | x :: t => insertStr_sorted x (sortStrs t) (sortStrs_sorted t)

theorem sortStrs_perm : ∀ (l : List String), (sortStrs l).Perm l
  | [] => List.Perm.refl _
  | x :: t => (insertStr_perm x (sortStrs t)).trans ((sortStrs_perm t).cons x)

theorem pySortValues_strs (l : List Value) (h : l.all isStr = true) :
    pySortValues l = .ok ((sortStrs (l.map strOf)).map Value.str) := by
  simp [pySortValues, h, pure, Except.pure]

theorem exc_bind_ok {α β ε : Type} (a : α) (f : α → Except ε β) :
    (bind (Except.ok a) f : Except ε β) = f a :=
  rfl

theorem exc_bind_pure {α β ε : Type} (a : α) (f : α → Except ε β) :
    (bind (pure a) f : Except ε β) = f a :=
  rfl

theorem mapM_ok_tuple_zip (g : Value → Except PyErr (List Value)) :
    ∀ (l : List Value) (tps : List (List Value)), l.mapM g = .ok tps →
      l.mapM (fun x => do pure (Value.tupleL (← g x), x))
        = .ok ((tps.map Value.tupleL).zip l)
  | [], tps, h => by
    simp only [List.mapM_nil, pure, Except.pure] at h ⊢
    cases h
    rfl
  | a :: t, tps, h => by
    rw [List.mapM_cons] at h
    rcases hf : g a with e | b
    · rw [hf] at h
      simp [bind, Except.bind] at h
    · rw [hf] at h
      rcases ht : t.mapM g with e2 | bs
      · rw [ht] at h
        simp [bind, Except.bind] at h
      · rw [ht] at h
        simp only [bind, Except.bind, pure, Except.pure] at h
        cases h
        have ih := mapM_ok_tuple_zip g t bs ht
        rw [List.mapM_cons, ih]
        simp only [bind, Except.bind, hf, pure, Except.pure]
        rfl

/-- Claim C8 (confirmed): for a non-empty sequence of mappings,
`sequence_to_dict` indexes positionally (by the string of the index)
when no identity key was identified, by the single key's value when
exactly one was, and by the tuple of the keys' values in sorted key
order when two or more were; the computed sort is ordered by the string
order and is a permutation of the identified keys. -/
theorem sequence_to_dict_index_shapes
    (seq : List Value) (isk : Option (Value → Bool → Bool)) (ci : Bool)
    (ks0 : List Value) (g : KeySet) (it : Value) (rest : List Value)
    (hseq : seq = it :: rest)
    (hit : typeOf it = .dictT)
    (hg : guess_keys seq isk ci ks0 = .ok g) :
    (g.toList = [] →
      sequence_to_dict seq isk ci ks0
        = .ok (Value.dictL (pyDictOfPairs
            (seq.enum.map (fun p => (Value.str (toString p.1), p.2))))))
    ∧ (∀ k vs, g.toList = [k] →
        seq.mapM (fun x => dictGetKey x k) = .ok vs →
        sequence_to_dict seq isk ci ks0
          = .ok (Value.dictL (pyDictOfPairs (vs.zip seq))))
    ∧ (∀ k1 k2 ks, g.toList = k1 :: k2 :: ks →
        (k1 :: k2 :: ks).all isStr = true →
        (∀ tps, seq.mapM (fun x =>
              ((sortStrs ((k1 :: k2 :: ks).map strOf)).map Value.str).mapM
                (fun k => dictGetKey x k)) = .ok tps →
            sequence_to_dict seq isk ci ks0
              = .ok (Value.dictL (pyDictOfPairs
                  ((tps.map Value.tupleL).zip seq))))
          ∧ List.Pairwise (fun a b => strLeB a b = true)
              (sortStrs ((k1 :: k2 :: ks).map strOf))
          ∧ (sortStrs ((k1 :: k2 :: ks).map strOf)).Perm
              ((k1 :: k2 :: ks).map strOf)) := by
  subst hseq
  refine ⟨?_, ?_, ?_⟩
  · intro h0
    unfold sequence_to_dict
    rw [hg, exc_bind_ok]
    try dsimp only
    rw [h0]
    try dsimp only
    rw [exc_bind_pure]
    try dsimp only
    rw [range_map_getD_eq_enum (it :: rest)]
    rfl
  · intro k vs h1 hvs
    unfold sequence_to_dict
    rw [hg, exc_bind_ok]
    try dsimp only
    rw [h1]
    try dsimp only
    rw [exc_bind_pure]
    try dsimp only
    rw [hit]
    simp only [beq_self_eq_true, if_true]
    rw [mapM_ok_pair_zip (fun x => dictGetKey x k) (it :: rest) vs hvs,
      exc_bind_ok]
    rfl
  · intro k1 k2 ks h2 hstr
    refine ⟨?_, sortStrs_sorted _, sortStrs_perm _⟩
    intro tps htps
    unfold sequence_to_dict
    rw [hg, exc_bind_ok]
    try dsimp only
    rw [h2]
    try dsimp only
    rw [exc_bind_pure]
    try dsimp only
    rw [pySortValues_strs _ hstr, exc_bind_ok]
    try dsimp only
    rw [hit]
    simp only [beq_self_eq_true, if_true]
    rw [mapM_ok_tuple_zip
      (fun x => ((sortStrs ((k1 :: k2 :: ks).map strOf)).map Value.str).mapM
        (fun k => dictGetKey x k)) (it :: rest) tps htps, exc_bind_ok]
    rfl

/-- Witness for `sequence_to_dict_index_shapes`: one-element sequences
hitting the positional, single-key and sorted-tuple index shapes. -/
theorem sequence_to_dict_index_shapes_witness :
    sequence_to_dict [Value.dictL [(.str "a", .int 1)]] Option.none true []
      = .ok (Value.dictL [(.str "0", Value.dictL [(.str "a", .int 1)])])
    ∧ sequence_to_dict [Value.dictL [(.str "id", .int 1)]]
        (some key_denoted_by_id) true []
      = .ok (Value.dictL [(.int 1, Value.dictL [(.str "id", .int 1)])])
    ∧ sequence_to_dict
        [Value.dictL [(.str "bid", .int 2), (.str "aid", .int 1)]]
        (some key_denoted_by_id) true []
      = .ok (Value.dictL [(Value.tupleL [.int 1, .int 2],
          Value.dictL [(.str "bid", .int 2), (.str "aid", .int 1)])]) :=
  ⟨((sequence_to_dict_index_shapes [Value.dictL [(.str "a", .int 1)]]
      Option.none true [] (.set []) (Value.dictL [(.str "a", .int 1)]) []
      rfl rfl rfl).1 rfl).trans rfl,
   ((sequence_to_dict_index_shapes [Value.dictL [(.str "id", .int 1)]]
      (some key_denoted_by_id) true [] (.set [.str "id"])
      (Value.dictL [(.str "id", .int 1)]) [] rfl rfl rfl).2.1
      (.str "id") [.int 1] rfl rfl).trans rfl,
   (((sequence_to_dict_index_shapes
      [Value.dictL [(.str "bid", .int 2), (.str "aid", .int 1)]]
      (some key_denoted_by_id) true [] (.set [.str "bid", .str "aid"])
      (Value.dictL [(.str "bid", .int 2), (.str "aid", .int 1)]) []
      rfl rfl rfl).2.2 (.str "bid") (.str "aid") [] rfl rfl).1
      [[.int 1, .int 2]] rfl).trans rfl⟩

theorem dictLookup_insert :
    ∀ (es : List (Value × Value)) (k v : Value), pyEq k k = true →
      dictLookup (dictInsertPair es k v) k = .ok v
  | [], k, v, hk => by
    simp [dictInsertPair, dictLookup, List.find?, hk, pure, Except.pure]
  | e :: t, k, v, hk => by
    unfold dictInsertPair
    cases he : pyEq e.1 k
    · cases hany : t.any (fun e => pyEq e.1 k)
      · simp only [List.any_cons, he, hany, Bool.or_self, Bool.false_eq_true,
          if_false]
        have ih := dictLookup_insert t k v hk
        unfold dictInsertPair at ih
        rw [hany] at ih
        simp only [Bool.false_eq_true, if_false] at ih
        simp only [dictLookup, List.cons_append, List.find?, he] at ih ⊢
        exact ih
      · simp only [List.any_cons, he, hany, Bool.false_or, if_true]
        have ih := dictLookup_insert t k v hk
        unfold dictInsertPair at ih
        rw [hany] at ih
        simp only [if_true] at ih
        simp only [dictLookup, List.map_cons, List.find?, he,
          Bool.false_eq_true, if_false] at ih ⊢
        exact ih
    · simp only [List.any_cons, he, Bool.true_or, if_true]
      simp [dictLookup, List.find?, he, pure, Except.pure]

/-- Claim C9 (corrected), counterexample: two sequence elements with the
same identity value — the later one silently overwrites the earlier one,
but, contrary to the claim, no warning at all is logged during the
conversion (the source has no logging call on this path). -/
theorem sequence_to_dict_overwrites_without_warning :
    sequence_to_dict
      [Value.dictL [(.str "id", .int 1), (.str "v", .int 10)],
       Value.dictL [(.str "id", .int 1), (.str "v", .int 20)]]
      (some key_denoted_by_id) true []
      = .ok (Value.dictL
          [(.int 1, Value.dictL [(.str "id", .int 1), (.str "v", .int 20)])])
    ∧ sequence_to_dict_warnings
      [Value.dictL [(.str "id", .int 1), (.str "v", .int 10)],
       Value.dictL [(.str "id", .int 1), (.str "v", .int 20)]]
      (some key_denoted_by_id) true [] = .ok [] :=
  ⟨by rfl, by rfl⟩

/-- Claim C9 (corrected, amended): when two elements compute the same
index value during sequence-to-dict conversion, the later element
silently overwrites the earlier one — looking up that index in the dict
built from the pairs yields the last written value — and no warning is
logged by the conversion when no explicit keys are passed. -/
theorem duplicate_index_last_write_wins :
    (∀ (ps : List (Value × Value)) (k v : Value),
        pyEq k k = true →
        dictLookup (pyDictOfPairs (ps ++ [(k, v)])) k = .ok v)
    ∧ (∀ (seq : List Value) (isk : Option (Value → Bool → Bool)) (ci : Bool),
        sequence_to_dict_warnings seq isk ci [] = .ok []) := by
  constructor
  · intro ps k v hk
    have hfold : pyDictOfPairs (ps ++ [(k, v)])
        = dictInsertPair (pyDictOfPairs ps) k v := by
      simp [pyDictOfPairs, List.foldl_append]
    rw [hfold]
    exact dictLookup_insert (pyDictOfPairs ps) k v hk
  · intro seq isk ci
    unfold sequence_to_dict_warnings guess_keys_warnings
    split
    · rfl
    · try dsimp only
      split
      · rfl
      · try dsimp only
        split
        · rfl
        · rfl

/-- Witness for `duplicate_index_last_write_wins`: the index `1` written
twice keeps the second value, and a conversion emits no warnings. -/
theorem duplicate_index_last_write_wins_witness :
    dictLookup (pyDictOfPairs ([(.int 1, .int 10)] ++ [(.int 1, .int 20)]))
        (.int 1) = .ok (.int 20)
    ∧ sequence_to_dict_warnings [Value.dictL [(.str "id", .int 1)]]
        (some key_denoted_by_id) true [] = .ok [] :=
  ⟨duplicate_index_last_write_wins.1 [(.int 1, .int 10)] (.int 1) (.int 20)
      (by rfl),
   duplicate_index_last_write_wins.2 [Value.dictL [(.str "id", .int 1)]]
      (some key_denoted_by_id) true⟩

/-- Claim C10 (confirmed): `sequence_to_dict` reads the type of the
first element before checking whether any identity keys were found, so
an empty sequence raises `IndexError` whatever the other arguments are;
consequently comparing `[]` against `[1]` raises `IndexError` instead of
returning a delta. -/
theorem empty_sequence_raises_index_error :
    (∀ (isk : Option (Value → Bool → Bool)) (ci : Bool) (ks0 : List Value),
        sequence_to_dict [] isk ci ks0 = .error .indexError)
    ∧ (∀ fuel : Nat,
        DeepDelta_compare (fuel + 2) (Value.listL []) (Value.listL [.int 1])
          Option.none = .error .indexError) := by
  constructor
  · intro isk ci ks0
    rfl
  · intro fuel
    rfl
